import Mathlib

/-!
Verification development for the Evochat billing/entitlement core.

Shallow embedding of:
* `src/api/server/services/Paddle/UsageService.ts` (usage ledger, cost guard),
* the billing service (`PLANS`, `isAllowed`, `chooseTier`) from the
  `Billing` module (source file `src/unnamed/part_006`),
* the webhook reconciler `PaddleService.processOne`
  (source file `src/unnamed/part_008`) together with the MongoDB
  `findOneAndUpdate`/upsert semantics it relies on, and the
  `Subscription` schema (`src/api/models/Subscription.ts`).

JavaScript conventions used by the embedding:
* epoch milliseconds are `Int`;
* `Math.floor (x / y)` for a positive integer divisor `y` is `Int` `/`
  (Euclidean = floor division for positive divisors);
* JS `Date` UTC accessors are embedded through the proleptic Gregorian
  civil-calendar conversions `daysFromCivil` / `civilFromDays`
  (1970-01-01 = epoch day 0, a Thursday);
* monetary amounts (JS `number`) are embedded as `ℚ`.
-/

namespace Evochat

/-- Model tiers, from `UsageService.ts` (`ModelTier`). -/
inductive ModelTier
  | economy
  | standard
  | premium
  | flagship
  | economy_mini
  | standard_mini
  | premium_mini
  deriving DecidableEq, Repr

/-- Plan identifiers, from the plan catalog in the billing service. -/
inductive PlanId
  | free
  | basic
  | pro
  | pro_plus
  deriving DecidableEq, Repr

/-- Subscription statuses, from `Subscription.ts` (`SubscriptionStatus`). -/
inductive SubStatus
  | trialing
  | active
  | paused
  | past_due
  | canceled
  deriving DecidableEq, Repr

/-! ### UTC calendar arithmetic (embedding of the JS `Date` UTC methods)

`daysFromCivil`/`civilFromDays` are the standard proleptic Gregorian
conversions between a calendar date and the day count since 1970-01-01. -/

/-- Epoch-day number of the civil date `(y, m, d)` (proleptic Gregorian). -/
def daysFromCivil (y m d : Int) : Int :=
  let y' := if m ≤ 2 then y - 1 else y
  let era := y' / 400
  let yoe := y' - era * 400
  let mp := (m + 9) % 12
  let doy := (153 * mp + 2) / 5 + d - 1
  let doe := yoe * 365 + yoe / 4 - yoe / 100 + doy
  era * 146097 + doe - 719468

/-- Civil date `(year, month, day)` of an epoch-day number. -/
def civilFromDays (z : Int) : Int × Int × Int :=
  let z' := z + 719468
  let era := z' / 146097
  let doe := z' - era * 146097
  let yoe := (doe - doe / 1460 + doe / 36524 - doe / 146096) / 365
  let y := yoe + era * 400
  let doy := doe - (365 * yoe + yoe / 4 - yoe / 100)
  let mp := (5 * doy + 2) / 153
  let d := doy - (153 * mp + 2) / 5 + 1
  let m := mp + (if mp < 10 then 3 else -9)
  (if m ≤ 2 then y + 1 else y, m, d)

/-- `getUTCFullYear` of an epoch-day number. -/
def yearOfDay (day : Int) : Int := (civilFromDays day).1

/-- `getUTCMonth() + 1` (1-based month) of an epoch-day number. -/
def monthOfDay (day : Int) : Int := (civilFromDays day).2.1

/-- Epoch day containing an epoch-millisecond instant
(`Date.UTC(getUTCFullYear(), getUTCMonth(), getUTCDate())`). -/
def epochDay (ms : Int) : Int := ms / 86400000

/-- JS `getUTCDay() || 7` (Mon = 1 .. Sun = 7) of an epoch-day number;
1970-01-01 (epoch day 0) was a Thursday, so `getUTCDay = (day + 4) % 7`. -/
def dow7 (day : Int) : Int :=
  let r := (day + 4) % 7
  if r = 0 then 7 else r

/-- `endOfMonthUtc(d).getTime()` from `UsageService.ts`: the last
millisecond of the UTC calendar month containing `nowMs`. -/
def monthEndMs (nowMs : Int) : Int :=
  let day := epochDay nowMs
  let y := yearOfDay day
  let m := monthOfDay day
  let next := if m = 12 then daysFromCivil (y + 1) 1 1 else daysFromCivil y (m + 1) 1
  next * 86400000 - 1

/-- `isoWeekInfo` from `UsageService.ts`, restricted to the
`(isoYear, isoWeek)` pair used to build the weekly counter key.
`base` is the UTC midnight of the instant's date, `thurs` the Thursday of
its Mon-Sun week, `week1Mon` the Monday of the week containing Jan 1 of
`thurs`'s year, and `isoWeek` the (floor) week count from `week1Mon`. -/
def isoWeekNums (ms : Int) : Int × Int :=
  let base := epochDay ms
  let dow := dow7 base
  let thurs := base + (4 - dow)
  let isoYear := yearOfDay thurs
  let jan1 := daysFromCivil isoYear 1 1
  let jan1Dow := dow7 jan1
  let week1Mon := jan1 + (1 - jan1Dow)
  let isoWeek := (base * 86400000 - week1Mon * 86400000) / 604800000 + 1
  (isoYear, isoWeek)

/-- `weekEndTs` of `isoWeekInfo`: last millisecond of the ISO week. -/
def weekEndMs (ms : Int) : Int :=
  let base := epochDay ms
  let dow := dow7 base
  let thurs := base + (4 - dow)
  let isoYear := yearOfDay thurs
  let jan1 := daysFromCivil isoYear 1 1
  let jan1Dow := dow7 jan1
  let week1Mon := jan1 + (1 - jan1Dow)
  let isoWeek := (base * 86400000 - week1Mon * 86400000) / 604800000 + 1
  (week1Mon + isoWeek * 7) * 86400000 - 1

/-! ### UsageService -/

/-- JS `ToInt32` (the `| 0` operator): reduce an integer to the signed
32-bit range. -/
def toInt32 (t : Int) : Int :=
  (t + 2 ^ 31) % 2 ^ 32 - 2 ^ 31

/-- The ZSET score stored by `UsageService.trackUsage` for an explicit
`timestamp` argument `t`: the code computes `const ts = (timestamp ?? this.nowMs()) | 0`
and calls `zadd(key, ts, member)`, so the score is `t | 0`. -/
def trackUsageScore (t : Int) : Int := toInt32 t

/-- The pruning threshold used by `UsageService.getRollingWindowUsage`
(`windowStart = nowMs - windowSeconds * 1000`, not truncated). -/
def rollingWindowStart (nowMs : Int) (windowSeconds : Int) : Int :=
  nowMs - windowSeconds * 1000

/-- The `(isoYear, isoWeek)` component of the weekly counter key built by
`UsageService.weekKey` (used by both `incrementWeeklyUsage` and
`getWeeklyUsage`); the remaining key components (`ns`, `userId`, `tier`)
do not depend on the instant. -/
def weekKeyPair (nowMs : Int) : Int × Int := isoWeekNums nowMs

/-- The mathematical Monday-start week index of an instant: two
instants lie in the same ISO-8601 week (Monday start; the ISO-year
label is a property of the whole week, so it does not refine the
partition) iff their indices agree. Epoch day 4 (1970-01-05) is a
Monday and gets index 1. -/
def isoWeekIndex (ms : Int) : Int := (epochDay ms + 3) / 7

/-- `isoWeekNums` as a function of the Monday of the instant's Mon-Sun
week (used to show the weekly key is constant on each week and
injective across weeks). -/
def isoPairOfMonday (monday : Int) : Int × Int :=
  let thurs := monday + 3
  let isoYear := yearOfDay thurs
  let jan1 := daysFromCivil isoYear 1 1
  let week1Mon := jan1 + (1 - dow7 jan1)
  (isoYear, (monday - week1Mon) / 7 + 1)

/-- A Redis key for the monthly COGS accumulator: value plus optional
expiry (`none` = no TTL set, Redis TTL = -1). -/
structure CogsEntry where
  value : ℚ
  expireAt : Option Int
  deriving DecidableEq, Repr

/-- Redis `INCRBYFLOAT`: creates a missing key with value 0 (and no
expiry) before adding; returns the new value. -/
def redisIncrByFloat (st : Option CogsEntry) (x : ℚ) : ℚ × Option CogsEntry :=
  match st with
  | none => (x, some ⟨x, none⟩)
  | some e => (e.value + x, some ⟨e.value + x, e.expireAt⟩)

/-- `UsageService.ensureExpireAt`: reads `TTL`; only when the key exists
with no expiry (TTL = -1) does it issue `EXPIREAT`. A missing key
(TTL = -2) is left alone. -/
def ensureExpireAtCogs (st : Option CogsEntry) (expAt : Int) : Option CogsEntry :=
  match st with
  | none => none
  | some e => if e.expireAt = none then some ⟨e.value, some expAt⟩ else some e

/-- `UsageService.incrementMonthlyCogs` (the `incrbyfloat` branch):
adds `cost` to the month's accumulator and ensures the expiry is set to
the end of the month. Returns the new accumulator value and the new
state of the key. -/
def incrementMonthlyCogs (st : Option CogsEntry) (cost : ℚ) (nowMs : Int) :
    ℚ × Option CogsEntry :=
  let expAt := monthEndMs nowMs / 1000
  let p := redisIncrByFloat st cost
  (p.1, ensureExpireAtCogs p.2 expAt)

/-- Token types priced by `getMultiplier`. -/
inductive TokenType
  | prompt
  | completion
  deriving DecidableEq, Repr

/-- `UsageService.calculateTokenCostUSD`: `0` for a non-positive token
count, else `tokenCount * (multiplier / 1e6)` where the multiplier is
USD per 1M tokens (the external price table is the function `getMult`). -/
def calculateTokenCostUSD (getMult : TokenType → ℚ) (tt : TokenType) (tokenCount : Int) : ℚ :=
  if tokenCount ≤ 0 then 0 else tokenCount * (getMult tt / 1000000)

/-- `UsageService.trackTokenCost`: prices prompt and completion tokens in
USD, converts with the current USD→EUR `rate`, and unconditionally calls
`incrementMonthlyCogs` with the EUR amount. Returns the value returned
by `incrementMonthlyCogs` (the accumulator's new total) and the new key
state. -/
def trackTokenCost (getMult : TokenType → ℚ) (rate : ℚ)
    (promptTokens completionTokens : Int) (st : Option CogsEntry) (nowMs : Int) :
    ℚ × Option CogsEntry :=
  let promptCostUSD := calculateTokenCostUSD getMult .prompt promptTokens
  let completionCostUSD := calculateTokenCostUSD getMult .completion completionTokens
  let totalCostUSD := promptCostUSD + completionCostUSD
  let totalCostEUR := totalCostUSD * rate
  incrementMonthlyCogs st totalCostEUR nowMs

/-- Result of `UsageService.checkCostGuard` (the human-readable
`message` field is presentation-only and omitted). -/
structure CostGuardResult where
  allowed : Bool
  reason : String
  currentCogsEUR : ℚ
  budgetEUR : ℚ
  percentageUsed : ℚ
  deriving DecidableEq, Repr

/-- `UsageService.checkCostGuard`, applied to the value
`currentCogsEUR` read from the monthly accumulator and the plan's
`monthlyBudgetEUR`. -/
def checkCostGuard (currentCogsEUR monthlyBudgetEUR : ℚ) : CostGuardResult :=
  let percentageUsed := if monthlyBudgetEUR > 0 then currentCogsEUR / monthlyBudgetEUR * 100 else 0
  if percentageUsed ≥ 110 then
    ⟨false, "cost_guard_blocked", currentCogsEUR, monthlyBudgetEUR, percentageUsed⟩
  else if percentageUsed ≥ 90 then
    ⟨true, "cost_guard_warning", currentCogsEUR, monthlyBudgetEUR, percentageUsed⟩
  else
    ⟨true, "ok", currentCogsEUR, monthlyBudgetEUR, percentageUsed⟩

/-! ### Billing service: plan catalog -/

/-- A rolling-window limit entry (`windowLimits` element). -/
structure WindowLimit where
  tier : ModelTier
  limit : Nat
  windowSeconds : Nat
  deriving DecidableEq, Repr

/-- A weekly-limit or monthly-soft-cap entry. -/
structure TierLimit where
  tier : ModelTier
  limit : Nat
  deriving DecidableEq, Repr

/-- A plan catalog entry (`PLANS` value). The `priceId` string comes
from the environment and is irrelevant to the entitlement decisions;
plans without a `weeklyLimits` field in the source (the free plan) get
`[]`, matching `plan.weeklyLimits || []`. -/
structure Plan where
  id : PlanId
  priceEUR : ℚ
  windowLimits : List WindowLimit
  weeklyLimits : List TierLimit
  monthlySoftCaps : List TierLimit
  fallbackChain : List ModelTier
  monthlyCogsBudgetEUR : ℚ
  deriving DecidableEq, Repr

/-- `FIVE_HOURS` (18000 s). -/
def FIVE_HOURS : Nat := 5 * 60 * 60

/-- `THREE_HOURS` (10800 s). -/
def THREE_HOURS : Nat := 3 * 60 * 60

/-- The `PLANS` catalog, and `BillingService.getPlanById` (total on the
plan-id enum; the catalog always contains every id). -/
def getPlanById : PlanId → Plan
  | .free =>
    { id := .free
      priceEUR := 0
      windowLimits := [⟨.economy, 10, FIVE_HOURS⟩]
      weeklyLimits := []
      monthlySoftCaps := [⟨.economy, 300⟩]
      fallbackChain := [.economy_mini]
      monthlyCogsBudgetEUR := 0 }
  | .basic =>
    { id := .basic
      priceEUR := 12
      windowLimits := [⟨.premium, 15, THREE_HOURS⟩, ⟨.standard, 60, THREE_HOURS⟩]
      weeklyLimits := [⟨.premium, 300⟩]
      monthlySoftCaps := [⟨.economy, 2000⟩]
      fallbackChain := [.standard, .standard_mini]
      monthlyCogsBudgetEUR := 12 * (6 / 10) }
  | .pro =>
    { id := .pro
      priceEUR := 22
      windowLimits := [⟨.premium, 160, THREE_HOURS⟩, ⟨.standard, 120, THREE_HOURS⟩]
      weeklyLimits := [⟨.premium, 1000⟩]
      monthlySoftCaps := [⟨.economy, 2000⟩]
      fallbackChain := [.standard, .standard_mini]
      monthlyCogsBudgetEUR := 22 * (6 / 10) }
  | .pro_plus =>
    { id := .pro_plus
      priceEUR := 48
      windowLimits :=
        [⟨.flagship, 60, THREE_HOURS⟩, ⟨.premium, 300, THREE_HOURS⟩,
         ⟨.standard, 120, THREE_HOURS⟩]
      weeklyLimits := [⟨.flagship, 300⟩, ⟨.premium, 2000⟩]
      monthlySoftCaps := [⟨.economy, 2000⟩, ⟨.flagship, 80⟩]
      fallbackChain := [.premium, .standard, .standard_mini]
      monthlyCogsBudgetEUR := 48 * (6 / 10) }

/-! ### Billing service: `isAllowed` and `chooseTier`

The service reads the user's subscription document
(`Subscription.findOne({ userId })` — no status filter), the usage
counters and the monthly COGS accumulator. The deterministic state of
those external stores for the one user under consideration is a
`BillingStore`: the counter reads are arbitrary functions of the
arguments the code passes them, and `fetchFails = true` models the
subscription fetch throwing (store unavailable), which `isAllowed` and
`chooseTier` both catch. -/

/-- The fields of the user's subscription document read by the billing
service. -/
structure SubRec where
  planId : PlanId
  status : SubStatus
  deriving DecidableEq, Repr

/-- Deterministic state of the external stores for one user. -/
structure BillingStore where
  fetchFails : Bool
  sub : Option SubRec
  rolling : ModelTier → Nat → Nat
  weekly : ModelTier → Nat
  monthly : ModelTier → Nat
  cogs : ℚ
  now : Int

/-- `subscription?.planId || 'free'` (plan ids are non-empty enum
strings, so `||` only falls through when there is no document). -/
def planIdOf (st : BillingStore) : PlanId :=
  match st.sub with
  | some s => s.planId
  | none => .free

/-- Result of `isAllowed` (`AllowanceResult`); `resetETA` is the
epoch-millisecond instant whose ISO string the code returns. -/
structure AllowanceResult where
  allowed : Bool
  reason : String
  resetETA : Option Int
  deriving DecidableEq, Repr

/-- The window-limit loop of `isAllowed`: the first entry matching
`tier` whose rolling-window usage reaches its limit yields a
`window_cap` block with `resetETA = now + windowSeconds * 1000`. -/
def findWindowBlock (st : BillingStore) (tier : ModelTier) :
    List WindowLimit → Option (String × Option Int)
  | [] => none
  | wl :: rest =>
    if wl.tier = tier then
      if st.rolling tier wl.windowSeconds ≥ wl.limit then
        some ("window_cap", some (st.now + (wl.windowSeconds : Int) * 1000))
      else findWindowBlock st tier rest
    else findWindowBlock st tier rest

/-- The weekly-limit loop of `isAllowed` (`resetETA` = end of the
current ISO week). -/
def findWeeklyBlock (st : BillingStore) (tier : ModelTier) :
    List TierLimit → Option (String × Option Int)
  | [] => none
  | tl :: rest =>
    if tl.tier = tier then
      if st.weekly tier ≥ tl.limit then
        some ("weekly_cap", some (weekEndMs st.now))
      else findWeeklyBlock st tier rest
    else findWeeklyBlock st tier rest

/-- The monthly-soft-cap loop of `isAllowed` (`resetETA` = end of the
current month). -/
def findSoftCapBlock (st : BillingStore) (tier : ModelTier) :
    List TierLimit → Option (String × Option Int)
  | [] => none
  | tl :: rest =>
    if tl.tier = tier then
      if st.monthly tier ≥ tl.limit then
        some ("soft_cap", some (monthEndMs st.now))
      else findSoftCapBlock st tier rest
    else findSoftCapBlock st tier rest

/-- `BillingService.isAllowed`: resolve the plan from the subscription
document (no status filter), then check window limits, weekly limits,
monthly soft caps and the cost guard in order; any thrown error is
caught and converted to `blocked(reason = error)`. -/
def isAllowed (st : BillingStore) (tier : ModelTier) : AllowanceResult :=
  if st.fetchFails then ⟨false, "error", none⟩
  else
    let plan := getPlanById (planIdOf st)
    match findWindowBlock st tier plan.windowLimits with
    | some (r, eta) => ⟨false, r, eta⟩
    | none =>
      match findWeeklyBlock st tier plan.weeklyLimits with
      | some (r, eta) => ⟨false, r, eta⟩
      | none =>
        match findSoftCapBlock st tier plan.monthlySoftCaps with
        | some (r, eta) => ⟨false, r, eta⟩
        | none =>
          let cg := checkCostGuard st.cogs plan.monthlyCogsBudgetEUR
          if cg.allowed then ⟨true, "ok", none⟩
          else ⟨false, "cost_guard", some (monthEndMs st.now)⟩

/-- Result of `chooseTier` (`TierSelectionResult`). -/
structure TierSelectionResult where
  effectiveTier : ModelTier
  reason : String
  resetETA : Option Int
  deriving DecidableEq, Repr

/-- The candidate sequence `[requestedTier, ...plan.fallbackChain]`. -/
def candidatesOf (st : BillingStore) (requestedTier : ModelTier) : List ModelTier :=
  requestedTier :: (getPlanById (planIdOf st)).fallbackChain

/-- The loop of `chooseTier`. `lastT` is
`tiersToTry[tiersToTry.length - 1]`, recomputed from the full candidate
list on every iteration in the source, hence constant. The second
component is the trace of tiers on which `isAllowed` was invoked, in
order. An allowed tier is returned with `reason = ok`; a disallowed
tier equal (as a value) to the last candidate is returned with the
blocking reason; the empty-list fallback mirrors the dead
`reason = fallback` return after the loop. -/
def chooseTierGo (st : BillingStore) (lastT : ModelTier) :
    List ModelTier → TierSelectionResult × List ModelTier
  | [] => (⟨lastT, "fallback", none⟩, [])
  | tier :: rest =>
    let allowance := isAllowed st tier
    if allowance.allowed then (⟨tier, "ok", allowance.resetETA⟩, [tier])
    else if tier = lastT then (⟨tier, allowance.reason, allowance.resetETA⟩, [tier])
    else
      let r := chooseTierGo st lastT rest
      (r.1, tier :: r.2)

/-- `BillingService.chooseTier`, also returning the trace of tiers
passed to `isAllowed`. The only statement inside the `try` that can
throw is the subscription fetch (`isAllowed` catches its own errors),
so the catch branch — returning the fixed tier `economy_mini` with
`reason = error` — fires exactly when the fetch fails. -/
def chooseTierT (st : BillingStore) (requestedTier : ModelTier) :
    TierSelectionResult × List ModelTier :=
  if st.fetchFails then (⟨.economy_mini, "error", none⟩, [])
  else
    let tiersToTry := candidatesOf st requestedTier
    let lastT := (getPlanById (planIdOf st)).fallbackChain.getLastD requestedTier
    chooseTierGo st lastT tiersToTry

/-- `BillingService.chooseTier`'s returned value. -/
def chooseTier (st : BillingStore) (requestedTier : ModelTier) : TierSelectionResult :=
  (chooseTierT st requestedTier).1

/-! ### Webhook reconciler (`PaddleService.processOne`)

The payload fields `processOne` extracts (already normalised across the
snake/camel-case variants the `get` helper accepts), the `Subscription`
document, the MongoDB conditional upsert and the event-status outcome.
User and price ids are modelled as strings assumed to be in canonical
form (`toObjectId` of a valid id is the identity). -/

/-- The payload fields read by `processOne`. `priceIds` lists
`item.price.id` for each element of `data.items` (`none` when an item
has no price id). -/
structure WPayload where
  customUserId : Option String
  dataId : Option String
  customerId : Option String
  statusRaw : String
  periodStart : Option Int
  periodEnd : Option Int
  graceAt : Option Int
  cancelAt : Option Int
  priceIds : List (Option String)
  deriving DecidableEq, Repr

/-- A persisted webhook event as seen by `processOne`: its
`occurredAt`, the quick-look `userId` stamped at persist time, and the
payload. -/
structure WEvent where
  occurredAt : Int
  userId : Option String
  payload : WPayload
  deriving DecidableEq, Repr

/-- The external collaborators of `processOne`: the
`CustomerLink` mapping (paddle customer id → user id) and the
`PRICE_TO_PLAN` table (built from environment-configured price ids). -/
structure PaddleEnv where
  links : String → Option String
  priceToPlan : String → Option PlanId

/-- A `Subscription` document (fields written by the reconciler).
`gracePeriodUntil` is an explicit nullable field; the other `Option`
fields are `none` when the field is absent/null in the document. -/
structure SubDoc where
  paddleSubscriptionId : String
  paddleCustomerId : Option String
  planId : Option PlanId
  priceId : Option String
  status : SubStatus
  gracePeriodUntil : Option Int
  currentPeriodStart : Option Int
  currentPeriodEnd : Option Int
  lastEventAt : Int
  deriving DecidableEq, Repr

/-- The subscription collection: at most one document per user id
(unique index on `userId`). -/
abbrev SubStore := String → Option SubDoc

/-- `mapPaddleStatusToSubscriptionStatus`: lowercases and maps the five
known statuses; anything else defaults to `active`. -/
def mapPaddleStatus (s : String) : SubStatus :=
  match s.toLower with
  | "active" => .active
  | "trialing" => .trialing
  | "paused" => .paused
  | "past_due" => .past_due
  | "canceled" => .canceled
  | _ => .active

/-- `resolveUserIdFromEvent`: prefer `data.custom_data.user_id`, else
look the paddle customer id up in `CustomerLink`. -/
def resolveUserIdFromEvent (env : PaddleEnv) (p : WPayload) : Option String :=
  match p.customUserId with
  | some uid => some uid
  | none =>
    match p.customerId with
    | none => none
    | some cid => env.links cid

/-- The user `processOne` settles on: the event's quick-look `userId`
if stamped, else `resolveUserIdFromEvent`. -/
def resolvedUser (env : PaddleEnv) (evt : WEvent) : Option String :=
  match evt.userId with
  | some u => some u
  | none => resolveUserIdFromEvent env evt.payload

/-- `getPlanFromItems`: the first item whose `price.id` is present and
mapped by `PRICE_TO_PLAN` yields `(priceId, plan)`. -/
def getPlanFromItems (env : PaddleEnv) : List (Option String) → Option (String × PlanId)
  | [] => none
  | none :: rest => getPlanFromItems env rest
  | some pid :: rest =>
    match env.priceToPlan pid with
    | some pl => some (pid, pl)
    | none => getPlanFromItems env rest

/-- The `update` object `processOne` builds. A `none` in
`paddleCustomerId` / `currentPeriodStart` / `currentPeriodEnd` /
`planId` / `priceId` means the key is absent from the `$set` document
(mongoose strips `undefined` values), so an existing document keeps its
value; `gracePeriodUntil` is always present (explicitly `null` unless
`past_due`). -/
structure SubUpdate where
  paddleSubscriptionId : String
  paddleCustomerId : Option String
  status : SubStatus
  lastEventAt : Int
  gracePeriodUntil : Option Int
  currentPeriodStart : Option Int
  currentPeriodEnd : Option Int
  planId : Option PlanId
  priceId : Option String
  deriving DecidableEq, Repr

/-- Build the `update` object from the event. -/
def buildUpdate (env : PaddleEnv) (evt : WEvent) (subId : String) : SubUpdate :=
  let p := evt.payload
  let status := mapPaddleStatus p.statusRaw
  let gracePeriodUntil :=
    if status = .past_due then
      some (match p.graceAt with
            | some g => g
            | none => evt.occurredAt + 7 * 24 * 3600 * 1000)
    else none
  let matched := getPlanFromItems env p.priceIds
  { paddleSubscriptionId := subId
    paddleCustomerId := p.customerId
    status := status
    lastEventAt := evt.occurredAt
    gracePeriodUntil := gracePeriodUntil
    currentPeriodStart := p.periodStart
    currentPeriodEnd :=
      match p.cancelAt with
      | some c => some c
      | none => p.periodEnd
    planId := matched.map (·.2)
    priceId := matched.map (·.1) }

/-- The document inserted when the upsert matches nothing: filter
equality (`userId`) plus `$setOnInsert` plus `$set`; absent optional
fields take the schema defaults (`null`). -/
def applyInsert (u : SubUpdate) : SubDoc :=
  { paddleSubscriptionId := u.paddleSubscriptionId
    paddleCustomerId := u.paddleCustomerId
    planId := u.planId
    priceId := u.priceId
    status := u.status
    gracePeriodUntil := u.gracePeriodUntil
    currentPeriodStart := u.currentPeriodStart
    currentPeriodEnd := u.currentPeriodEnd
    lastEventAt := u.lastEventAt }

/-- Overwrite-if-present: the value a `$set` leaves in a field whose
update key may be absent. -/
def setOr {α : Type} (new old : Option α) : Option α :=
  match new with
  | some v => some v
  | none => old

/-- `$set` applied to an existing document: keys absent from the update
keep their value; `gracePeriodUntil` is always overwritten. -/
def applySet (d : SubDoc) (u : SubUpdate) : SubDoc :=
  { paddleSubscriptionId := u.paddleSubscriptionId
    paddleCustomerId := setOr u.paddleCustomerId d.paddleCustomerId
    planId := setOr u.planId d.planId
    priceId := setOr u.priceId d.priceId
    status := u.status
    gracePeriodUntil := u.gracePeriodUntil
    currentPeriodStart := setOr u.currentPeriodStart d.currentPeriodStart
    currentPeriodEnd := setOr u.currentPeriodEnd d.currentPeriodEnd
    lastEventAt := u.lastEventAt }

/-- The duplicate-key error MongoDB raises when the stale-guarded
upsert attempts to insert a second document for the same user. -/
def dupKeyMsg : String :=
  "E11000 duplicate key error collection: subscriptions index: userId_1"

/-- The MongoDB `findOneAndUpdate` of `processOne`:
filter `{ userId, $or: [{lastEventAt: {$lt: occurredAt}}, {lastEventAt: {$exists: false}}] }`
with `upsert: true, new: true` against a collection with a unique index
on `userId` (every stored document carries `lastEventAt`; the schema
requires it and every write sets it).

* no document for the user → the filter matches nothing → upsert
  inserts; the new document is returned;
* a document with `lastEventAt < occurredAt` → matched and updated;
* a document with `lastEventAt ≥ occurredAt` → the filter matches
  nothing, so the upsert attempts an insert with the filter's `userId`
  equality, which violates the unique index: the call raises an
  `E11000` duplicate-key error (it never returns `null`). -/
def condUpsert (existing : Option SubDoc) (occurredAt : Int) (u : SubUpdate) :
    Except String SubDoc :=
  match existing with
  | none => .ok (applyInsert u)
  | some d =>
    if d.lastEventAt < occurredAt then .ok (applySet d u)
    else .error dupKeyMsg

/-- Terminal event status assigned by one `processOne` run. -/
inductive ProcOutcome
  | processed
  | ignored (reason : String)
  | failed (msg : String)
  deriving DecidableEq, Repr

/-- `PaddleService.processOne` on the subscription store: resolves the
user, extracts the subscription id, skips unmapped-price events for
brand-new users, and applies the conditional upsert. A thrown storage
error is propagated as `.error` (caught by the drain loop). The dead
`if (!res)` branch of the source (mark `ignored`/`stale_event`) is
unreachable: with `upsert: true, new: true` the call never resolves to
`null`. -/
def processOne (env : PaddleEnv) (store : SubStore) (evt : WEvent) :
    Except String (ProcOutcome × SubStore) :=
  match resolvedUser env evt with
  | none => .ok (.ignored "user_not_found", store)
  | some uid =>
    match evt.payload.dataId with
    | none => .ok (.ignored "no_subscription_id", store)
    | some subId =>
      let upd := buildUpdate env evt subId
      let existing := store uid
      if existing = none ∧ getPlanFromItems env evt.payload.priceIds = none then
        .ok (.ignored "price_not_mapped", store)
      else
        match condUpsert existing evt.occurredAt upd with
        | .error m => .error m
        | .ok newDoc =>
          .ok (.processed, fun u => if u = uid then some newDoc else store u)

/-- `processOne` as driven by the drain loop `applySubscriptionState`:
an exception marks the event `failed` with the message truncated to 500
characters and leaves the store as it was. -/
def processOneCaught (env : PaddleEnv) (store : SubStore) (evt : WEvent) :
    ProcOutcome × SubStore :=
  match processOne env store evt with
  | .error m => (.failed (m.take 500), store)
  | .ok r => r

/-! ### Concrete stores, environments and events used by the theorems -/

/-- Store for the C7 counterexample: the user's only subscription
record is a `canceled` `pro` subscription, and the user has 300
economy requests this month. -/
def stC7 : BillingStore :=
  { fetchFails := false
    sub := some ⟨.pro, .canceled⟩
    rolling := fun _ _ => 0
    weekly := fun _ => 0
    monthly := fun _ => 300
    cogs := 0
    now := 0 }

/-- The same usage with no subscription record (the claim's default
free plan). -/
def stC7free : BillingStore :=
  { stC7 with sub := none }

/-- Store for the C2 counterexample: a basic-plan user whose
subscription fetch throws (store unavailable). -/
def stC2 : BillingStore :=
  { fetchFails := true
    sub := some ⟨.basic, .active⟩
    rolling := fun _ _ => 0
    weekly := fun _ => 0
    monthly := fun _ => 0
    cogs := 0
    now := 0 }

/-- An all-zero-usage free-plan store (nothing blocks, nothing throws). -/
def stOk : BillingStore :=
  { fetchFails := false
    sub := none
    rolling := fun _ _ => 0
    weekly := fun _ => 0
    monthly := fun _ => 0
    cogs := 0
    now := 0 }

/-- Store for the C3 witness: a basic-plan user whose premium
rolling-window usage is at its limit (15 in 3 h) and who is otherwise
unconstrained. -/
def stC3 : BillingStore :=
  { fetchFails := false
    sub := some ⟨.basic, .active⟩
    rolling := fun t _ => if t = .premium then 15 else 0
    weekly := fun _ => 0
    monthly := fun _ => 0
    cogs := 0
    now := 0 }

/-- Collaborators for the reconciler theorems: no customer links are
needed (events carry the user id) and the price table maps the one
price id `pri_basic` to the basic plan. -/
def envC1 : PaddleEnv :=
  { links := fun _ => none
    priceToPlan := fun p => if p = "pri_basic" then some .basic else none }

/-- An existing subscription document for user `u1` whose watermark
`lastEventAt` is 2000. -/
def docC1 : SubDoc :=
  { paddleSubscriptionId := "s1"
    paddleCustomerId := some "c1"
    planId := some .basic
    priceId := some "pri_basic"
    status := .active
    gracePeriodUntil := none
    currentPeriodStart := some 0
    currentPeriodEnd := some 5000
    lastEventAt := 2000 }

/-- A subscription collection holding exactly `docC1` for user `u1`. -/
def storeC1 : SubStore := fun u => if u = "u1" then some docC1 else none

/-- An empty subscription collection. -/
def emptyStore : SubStore := fun _ => none

/-- A stale event for user `u1`: `occurredAt = 1000`, older than
`docC1.lastEventAt = 2000`; resolvable, with a subscription id and a
mapped price. -/
def evtC1 : WEvent :=
  { occurredAt := 1000
    userId := some "u1"
    payload :=
      { customUserId := some "u1"
        dataId := some "s1"
        customerId := some "c1"
        statusRaw := "active"
        periodStart := some 0
        periodEnd := some 5000
        graceAt := none
        cancelAt := none
        priceIds := [some "pri_basic"] } }

/-- C5 counterexample, earlier event (T1 = 1000): carries period
bounds. -/
def evtC5a : WEvent :=
  { occurredAt := 1000
    userId := some "u1"
    payload :=
      { customUserId := some "u1"
        dataId := some "s1"
        customerId := some "c1"
        statusRaw := "active"
        periodStart := some 111
        periodEnd := some 222
        graceAt := none
        cancelAt := none
        priceIds := [some "pri_basic"] } }

/-- C5 counterexample, later event (T2 = 2000): same user and
subscription, mapped price, but no period bounds and no customer id in
the payload. -/
def evtC5b : WEvent :=
  { occurredAt := 2000
    userId := some "u1"
    payload :=
      { customUserId := some "u1"
        dataId := some "s1"
        customerId := none
        statusRaw := "active"
        periodStart := none
        periodEnd := none
        graceAt := none
        cancelAt := none
        priceIds := [some "pri_basic"] } }

/-- C5 witness, later event (T2 = 2000) carrying every optional field
the earlier event carries. -/
def evtC5full : WEvent :=
  { occurredAt := 2000
    userId := some "u1"
    payload :=
      { customUserId := some "u1"
        dataId := some "s1"
        customerId := some "c1"
        statusRaw := "active"
        periodStart := some 333
        periodEnd := some 444
        graceAt := none
        cancelAt := none
        priceIds := [some "pri_basic"] } }

/-- Run `processOne` (with the drain loop's catch) on two events in
order and return the final subscription collection. -/
def runTwo (env : PaddleEnv) (store : SubStore) (a b : WEvent) : SubStore :=
  (processOneCaught env (processOneCaught env store a).2 b).2

/-- An event whose `$set` document carries every optional field:
customer id, period start, period end (or a cancellation time), and a
mapped plan/price. For such an event `$set` determines the whole
document. -/
def updComplete (env : PaddleEnv) (evt : WEvent) : Prop :=
  evt.payload.customerId.isSome = true ∧
    evt.payload.periodStart.isSome = true ∧
    (evt.payload.cancelAt.isSome = true ∨ evt.payload.periodEnd.isSome = true) ∧
    (getPlanFromItems env evt.payload.priceIds).isSome = true

/-! ### Helper lemmas -/

/-- `dow7` in closed form: `dow7 d - 1` is the day offset from the
Monday of `d`'s Mon-Sun week. -/
theorem dow7_eq (d : Int) : dow7 d = (d + 3) % 7 + 1 := by
  simp only [dow7]
  split <;> omega

/-- An allowed `isAllowed` result is exactly the final `ok` literal, the
fetch did not fail, and the cost guard allowed. -/
theorem isAllowed_true_elim (st : BillingStore) (tier : ModelTier)
    (h : (isAllowed st tier).allowed = true) :
    isAllowed st tier = ⟨true, "ok", none⟩ ∧ st.fetchFails = false ∧
      (checkCostGuard st.cogs (getPlanById (planIdOf st)).monthlyCogsBudgetEUR).allowed = true := by
  unfold isAllowed at h ⊢
  cases hf : st.fetchFails with
  | true => simp [hf] at h
  | false =>
    simp only [hf, Bool.false_eq_true, if_false] at h ⊢
    cases hw : findWindowBlock st tier (getPlanById (planIdOf st)).windowLimits with
    | some p => rw [hw] at h; obtain ⟨r, eta⟩ := p; simp at h
    | none =>
      rw [hw] at h
      cases hk : findWeeklyBlock st tier (getPlanById (planIdOf st)).weeklyLimits with
      | some p => rw [hk] at h; obtain ⟨r, eta⟩ := p; simp at h
      | none =>
        rw [hk] at h
        cases hm : findSoftCapBlock st tier (getPlanById (planIdOf st)).monthlySoftCaps with
        | some p => rw [hm] at h; obtain ⟨r, eta⟩ := p; simp at h
        | none =>
          rw [hm] at h
          cases hcg : (checkCostGuard st.cogs (getPlanById (planIdOf st)).monthlyCogsBudgetEUR).allowed with
          | true => simp
          | false => rw [hcg] at h; simp at h

/-- When no limit entry of the user's plan blocks the tier, the
`isAllowed` decision is exactly the cost guard's. -/
theorem isAllowed_no_limits (st : BillingStore) (tier : ModelTier)
    (hf : st.fetchFails = false)
    (hw : findWindowBlock st tier (getPlanById (planIdOf st)).windowLimits = none)
    (hk : findWeeklyBlock st tier (getPlanById (planIdOf st)).weeklyLimits = none)
    (hm : findSoftCapBlock st tier (getPlanById (planIdOf st)).monthlySoftCaps = none) :
    (isAllowed st tier).allowed =
      (checkCostGuard st.cogs (getPlanById (planIdOf st)).monthlyCogsBudgetEUR).allowed := by
  unfold isAllowed
  simp only [hf, Bool.false_eq_true, if_false, hw, hk, hm]
  cases hcg : (checkCostGuard st.cogs (getPlanById (planIdOf st)).monthlyCogsBudgetEUR).allowed <;>
    simp [hcg]

/-- For every plan the last element of the fallback chain is a mini
tier, and no plan lists any limit entry for a mini tier, so `isAllowed`
on the terminal candidate is decided by the cost guard alone. -/
theorem isAllowed_chainLast (st : BillingStore) (req : ModelTier)
    (hf : st.fetchFails = false) :
    (isAllowed st ((getPlanById (planIdOf st)).fallbackChain.getLastD req)).allowed =
      (checkCostGuard st.cogs (getPlanById (planIdOf st)).monthlyCogsBudgetEUR).allowed := by
  cases hp : planIdOf st
  case free =>
    have hx : (getPlanById PlanId.free).fallbackChain.getLastD req = ModelTier.economy_mini := rfl
    rw [hx, ← hp]
    exact isAllowed_no_limits st .economy_mini hf (by simp only [hp]; rfl)
      (by simp only [hp]; rfl) (by simp only [hp]; rfl)
  case basic =>
    have hx : (getPlanById PlanId.basic).fallbackChain.getLastD req = ModelTier.standard_mini := rfl
    rw [hx, ← hp]
    exact isAllowed_no_limits st .standard_mini hf (by simp only [hp]; rfl)
      (by simp only [hp]; rfl) (by simp only [hp]; rfl)
  case pro =>
    have hx : (getPlanById PlanId.pro).fallbackChain.getLastD req = ModelTier.standard_mini := rfl
    rw [hx, ← hp]
    exact isAllowed_no_limits st .standard_mini hf (by simp only [hp]; rfl)
      (by simp only [hp]; rfl) (by simp only [hp]; rfl)
  case pro_plus =>
    have hx : (getPlanById PlanId.pro_plus).fallbackChain.getLastD req = ModelTier.standard_mini := rfl
    rw [hx, ← hp]
    exact isAllowed_no_limits st .standard_mini hf (by simp only [hp]; rfl)
      (by simp only [hp]; rfl) (by simp only [hp]; rfl)

/-- The window-limit loop reads only the usage counters and the clock,
never the subscription document. -/
theorem findWindowBlock_sub (st : BillingStore) (x : Option SubRec)
    (tier : ModelTier) (l : List WindowLimit) :
    findWindowBlock { st with sub := x } tier l = findWindowBlock st tier l := by
  induction l with
  | nil => rfl
  | cons a r ih => simp only [findWindowBlock, ih]

/-- The weekly-limit loop never reads the subscription document. -/
theorem findWeeklyBlock_sub (st : BillingStore) (x : Option SubRec)
    (tier : ModelTier) (l : List TierLimit) :
    findWeeklyBlock { st with sub := x } tier l = findWeeklyBlock st tier l := by
  induction l with
  | nil => rfl
  | cons a r ih => simp only [findWeeklyBlock, ih]

/-- The soft-cap loop never reads the subscription document. -/
theorem findSoftCapBlock_sub (st : BillingStore) (x : Option SubRec)
    (tier : ModelTier) (l : List TierLimit) :
    findSoftCapBlock { st with sub := x } tier l = findSoftCapBlock st tier l := by
  induction l with
  | nil => rfl
  | cons a r ih => simp only [findSoftCapBlock, ih]

/-- A zero monthly budget short-circuits the cost guard to
`allowed/ok` with `percentageUsed = 0`, whatever the accumulated cost. -/
theorem checkCostGuard_zero_budget (c : ℚ) :
    checkCostGuard c 0 = ⟨true, "ok", c, 0, 0⟩ := by
  simp only [checkCostGuard]
  rw [if_neg (lt_irrefl (0 : ℚ))]
  rw [if_neg (by norm_num : ¬(0 : ℚ) ≥ 110)]
  rw [if_neg (by norm_num : ¬(0 : ℚ) ≥ 90)]

/-- The free plan's window-limit list has no entry for a non-economy
tier. -/
theorem findWindowBlock_free_ne (st : BillingStore) (tier : ModelTier)
    (ht : tier ≠ .economy) :
    findWindowBlock st tier [⟨.economy, 10, FIVE_HOURS⟩] = none := by
  cases tier <;> first | exact absurd rfl ht | rfl

/-- The free plan's soft-cap list has no entry for a non-economy tier. -/
theorem findSoftCapBlock_free_ne (st : BillingStore) (tier : ModelTier)
    (ht : tier ≠ .economy) :
    findSoftCapBlock st tier [⟨.economy, 300⟩] = none := by
  cases tier <;> first | exact absurd rfl ht | rfl

/-- The `chooseTier` loop only ever returns a candidate from its list
or the (separately passed) last candidate. -/
theorem chooseTierGo_mem (st : BillingStore) (lastT : ModelTier) (l : List ModelTier) :
    (chooseTierGo st lastT l).1.effectiveTier ∈ l ∨
      (chooseTierGo st lastT l).1.effectiveTier = lastT := by
  induction l with
  | nil => right; rfl
  | cons a r ih =>
    simp only [chooseTierGo]
    by_cases ha : (isAllowed st a).allowed = true
    · simp [ha]
    · simp only [ha, if_false]
      by_cases hl : a = lastT
      · simp [hl]
      · simp only [hl, if_false]
        rcases ih with h | h
        · exact Or.inl (List.mem_cons_of_mem a h)
        · exact Or.inr h

/-- The last candidate of `chooseTier`'s sequence is an element of the
sequence. -/
theorem candidatesOf_lastD_mem (st : BillingStore) (req : ModelTier) :
    (getPlanById (planIdOf st)).fallbackChain.getLastD req ∈ candidatesOf st req := by
  cases hp : planIdOf st <;> simp [candidatesOf, hp, getPlanById, List.getLastD]

/-- Skipping disallowed non-terminal candidates: if every tier of `pre`
is disallowed and differs from the last candidate, and `c` is allowed,
the loop walks through `pre` and returns `c` with `reason = ok`,
having invoked `isAllowed` exactly on `pre ++ [c]`. -/
theorem chooseTierGo_skip (st : BillingStore) (lastT : ModelTier) (c : ModelTier)
    (post : List ModelTier) (hc : isAllowed st c = ⟨true, "ok", none⟩) :
    ∀ pre : List ModelTier,
      (∀ x ∈ pre, (isAllowed st x).allowed = false ∧ x ≠ lastT) →
      chooseTierGo st lastT (pre ++ c :: post) = (⟨c, "ok", none⟩, pre ++ [c]) := by
  intro pre
  induction pre with
  | nil => intro _; simp [chooseTierGo, hc]
  | cons x xs ih =>
    intro h
    obtain ⟨hx, hxl⟩ := h x (List.mem_cons_self x xs)
    simp only [List.cons_append, chooseTierGo, hx, Bool.false_eq_true, if_false,
      List.append_eq]
    rw [if_neg hxl, ih (fun y hy => h y (List.mem_cons_of_mem x hy))]

/-! ### C2 — `chooseTier` totality and the error fallback -/

/-- C2 counterexample: on an internal error (the subscription fetch
throws) `chooseTier` returns the fixed tier `economy_mini` with
`reason = error`; for a basic-plan user requesting `premium` that tier
is not an element of `[requestedTier] ++ plan.fallbackChain`
(`[premium, standard, standard_mini]`), so the claim's membership
property fails on the error outcome it quantifies over. -/
theorem chooseTier_error_cex :
    stC2.fetchFails = true ∧ planIdOf stC2 = .basic ∧
      chooseTier stC2 .premium = ⟨.economy_mini, "error", none⟩ ∧
      ModelTier.economy_mini ∉ candidatesOf stC2 .premium := by
  refine ⟨rfl, rfl, rfl, by decide⟩

/-- C2 amended: `chooseTier` always returns a (total, defined) tier;
on every non-error outcome the tier is an element of
`[requestedTier] ++ plan.fallbackChain`, and on an internal error it is
the fixed terminal tier `economy_mini` with `reason = error` (which for
non-free plans may lie outside that sequence). -/
theorem chooseTier_total_tier (st : BillingStore) (req : ModelTier) :
    (st.fetchFails = false → (chooseTier st req).effectiveTier ∈ candidatesOf st req) ∧
      (st.fetchFails = true → chooseTier st req = ⟨.economy_mini, "error", none⟩) := by
  constructor
  · intro hf
    unfold chooseTier chooseTierT
    simp only [hf, Bool.false_eq_true, if_false]
    rcases chooseTierGo_mem st ((getPlanById (planIdOf st)).fallbackChain.getLastD req)
        (candidatesOf st req) with h | h
    · exact h
    · rw [h]; exact candidatesOf_lastD_mem st req
  · intro hf
    unfold chooseTier chooseTierT
    simp [hf]

/-- Witness for C2 at concrete inputs: a healthy free-plan store
returns a member of the candidate sequence; the failing store returns
`economy_mini` with `reason = error`. -/
theorem chooseTier_total_tier_witness :
    (chooseTier stOk .premium).effectiveTier ∈ candidatesOf stOk .premium ∧
      chooseTier stC2 .premium = ⟨.economy_mini, "error", none⟩ :=
  ⟨(chooseTier_total_tier stOk .premium).1 rfl, (chooseTier_total_tier stC2 .premium).2 rfl⟩

/-! ### C3 — `chooseTier` returns the first allowed candidate -/

/-- C3: `chooseTier` calls `isAllowed` on
`[requestedTier] ++ plan.fallbackChain` in order and returns the first
allowed candidate with `reason = ok`, and its trace contains exactly
the candidates up to and including that first allowed one — no later
fallback candidate is evaluated. (The loop's early exit on the last
candidate cannot fire before the first allowed candidate: the terminal
candidate is a mini tier whose allowance equals the cost guard's
verdict, and an allowed candidate implies the cost guard allows.) -/
theorem chooseTier_first_allowed (st : BillingStore) (req : ModelTier)
    (pre : List ModelTier) (c : ModelTier) (post : List ModelTier)
    (hf : st.fetchFails = false)
    (hsplit : candidatesOf st req = pre ++ c :: post)
    (hpre : ∀ x ∈ pre, (isAllowed st x).allowed = false)
    (hc : (isAllowed st c).allowed = true) :
    chooseTierT st req = (⟨c, "ok", none⟩, pre ++ [c]) := by
  obtain ⟨hceq, -, hcg⟩ := isAllowed_true_elim st c hc
  have hlast : ∀ x ∈ pre, x ≠ (getPlanById (planIdOf st)).fallbackChain.getLastD req := by
    intro x hx hxe
    have hchain := isAllowed_chainLast st req hf
    rw [← hxe] at hchain
    rw [hpre x hx] at hchain
    rw [hcg] at hchain
    exact absurd hchain (by decide)
  unfold chooseTierT
  simp only [hf, Bool.false_eq_true, if_false]
  rw [hsplit]
  exact chooseTierGo_skip st _ c post hceq pre (fun x hx => ⟨hpre x hx, hlast x hx⟩)

/-- Witness for C3 at a concrete input: requesting `premium` on the
`stC3` store, `premium` is window-capped, the middle candidate
`standard` is the first allowed and is returned with `reason = ok`;
`isAllowed` ran exactly on `[premium, standard]` — the terminal
`standard_mini` was never evaluated. -/
theorem chooseTier_first_allowed_witness :
    chooseTierT stC3 .premium = (⟨.standard, "ok", none⟩, [.premium, .standard]) := by
  have hw : findWindowBlock stC3 .standard (getPlanById (planIdOf stC3)).windowLimits = none := by
    decide
  have hk : findWeeklyBlock stC3 .standard (getPlanById (planIdOf stC3)).weeklyLimits = none := by
    decide
  have hm : findSoftCapBlock stC3 .standard (getPlanById (planIdOf stC3)).monthlySoftCaps = none := by
    decide
  have hcga :
      (checkCostGuard stC3.cogs (getPlanById (planIdOf stC3)).monthlyCogsBudgetEUR).allowed =
        true := by
    norm_num [checkCostGuard, stC3, planIdOf, getPlanById]
  have hc : (isAllowed stC3 .standard).allowed = true := by
    rw [isAllowed_no_limits stC3 .standard rfl hw hk hm]
    exact hcga
  exact chooseTier_first_allowed stC3 .premium [.premium] .standard [.standard_mini] rfl rfl
    (by decide) hc

/-! ### C4 — cost-guard thresholds -/

/-- C4: `checkCostGuard` computes `percentageUsed = cost/budget*100`
for a positive budget and `0` for a zero budget; the decision is
three-banded — below 90 percent `allowed/ok`, from 90 up to (not
including) 110 percent allowed with the warning reason, from 110
percent on blocked — and a zero budget is always allowed. -/
theorem checkCostGuard_bands (B c : ℚ) :
    (B > 0 → (checkCostGuard c B).percentageUsed = c / B * 100) ∧
    (B = 0 → (checkCostGuard c B).percentageUsed = 0 ∧ (checkCostGuard c B).allowed = true) ∧
    ((checkCostGuard c B).percentageUsed < 90 →
      (checkCostGuard c B).allowed = true ∧ (checkCostGuard c B).reason = "ok") ∧
    (90 ≤ (checkCostGuard c B).percentageUsed ∧ (checkCostGuard c B).percentageUsed < 110 →
      (checkCostGuard c B).allowed = true ∧
        (checkCostGuard c B).reason = "cost_guard_warning") ∧
    (110 ≤ (checkCostGuard c B).percentageUsed → (checkCostGuard c B).allowed = false) := by
  have heq : checkCostGuard c B =
      if 110 ≤ (if B > 0 then c / B * 100 else 0) then
        ⟨false, "cost_guard_blocked", c, B, if B > 0 then c / B * 100 else 0⟩
      else if 90 ≤ (if B > 0 then c / B * 100 else 0) then
        ⟨true, "cost_guard_warning", c, B, if B > 0 then c / B * 100 else 0⟩
      else ⟨true, "ok", c, B, if B > 0 then c / B * 100 else 0⟩ := rfl
  by_cases hB : B > 0
  · rw [heq]
    simp only [hB, if_pos]
    by_cases h110 : 110 ≤ c / B * 100
    · rw [if_pos h110]
      exact ⟨fun _ => rfl, fun h0 => absurd h0 (by intro h0; rw [h0] at hB; exact lt_irrefl 0 hB),
        fun h => absurd h (by simp only [not_lt]; linarith),
        fun h => absurd h110 (by simp only [not_le]; linarith [h.2]),
        fun _ => rfl⟩
    · rw [if_neg h110]
      by_cases h90 : 90 ≤ c / B * 100
      · rw [if_pos h90]
        exact ⟨fun _ => rfl, fun h0 => absurd h0 (by intro h0; rw [h0] at hB; exact lt_irrefl 0 hB),
          fun h => absurd h (by simp only [not_lt]; linarith),
          fun _ => ⟨rfl, rfl⟩, fun h => absurd h h110⟩
      · rw [if_neg h90]
        exact ⟨fun _ => rfl, fun h0 => absurd h0 (by intro h0; rw [h0] at hB; exact lt_irrefl 0 hB),
          fun _ => ⟨rfl, rfl⟩, fun h => absurd h.1 h90, fun h => absurd h h110⟩
  · have hp0 : (if B > 0 then c / B * 100 else 0) = 0 := if_neg hB
    rw [heq, hp0]
    rw [if_neg (by norm_num : ¬(110 : ℚ) ≤ 0), if_neg (by norm_num : ¬(90 : ℚ) ≤ 0)]
    exact ⟨fun h => absurd h hB, fun _ => ⟨rfl, rfl⟩, fun _ => ⟨rfl, rfl⟩,
      fun h => absurd h.1 (by norm_num), fun h => absurd h (by norm_num)⟩

/-- Witness for C4 at concrete inputs: 95 EUR spent of a 100 EUR budget
is allowed with the warning reason; 50 of 100 is `ok`; 115 of 100 is
blocked; budget 0 with 1000 spent is allowed at 0 percent. -/
theorem checkCostGuard_bands_witness :
    (checkCostGuard 95 100).allowed = true ∧
      (checkCostGuard 95 100).reason = "cost_guard_warning" ∧
      (checkCostGuard 50 100).reason = "ok" ∧
      (checkCostGuard 115 100).allowed = false ∧
      (checkCostGuard 1000 0).allowed = true ∧
      (checkCostGuard 1000 0).percentageUsed = 0 :=
  ⟨((checkCostGuard_bands 100 95).2.2.2.1 (by norm_num [checkCostGuard])).1,
   ((checkCostGuard_bands 100 95).2.2.2.1 (by norm_num [checkCostGuard])).2,
   ((checkCostGuard_bands 100 50).2.2.1 (by norm_num [checkCostGuard])).2,
   (checkCostGuard_bands 100 115).2.2.2.2 (by norm_num [checkCostGuard]),
   ((checkCostGuard_bands 0 1000).2.1 rfl).2,
   ((checkCostGuard_bands 0 1000).2.1 rfl).1⟩

/-! ### C9 — rolling-window scores are 32-bit truncated -/

/-- C9 (code bug): `trackUsage` computes its ZSET score with
`(timestamp ?? this.nowMs()) | 0`, reducing the epoch-millisecond
timestamp to a signed 32-bit integer: for the present-day timestamp
1760000000000 the stored score is -936591360, not the timestamp, even
though the pruning threshold of `getRollingWindowUsage` is computed
from the untruncated `nowMs`. -/
theorem trackUsage_score_truncated :
    trackUsageScore 1760000000000 = -936591360 ∧
      trackUsageScore 1760000000000 ≠ 1760000000000 ∧
      rollingWindowStart 1760000000000 18000 = 1759982000000 ∧
      trackUsageScore 1760000000000 < rollingWindowStart 1760000000000 18000 := by
  refine ⟨by decide, by decide, by decide, by decide⟩

/-! ### C6 — zero-token cost tracking still writes -/

/-- C6 (code bug): `trackTokenCost(userId, model, 0, 0)` does not
short-circuit: it calls `incrementMonthlyCogs(userId, 0)`, so it
returns the accumulator's current total (5, not 0, when 5 EUR is
already accumulated) and on a fresh month key it creates the key and
sets its expiry (the repository's own test expects the return value 0
and no `incrbyfloat` call). -/
theorem trackTokenCost_zero_tokens_writes :
    trackTokenCost (fun _ => 30) (92 / 100) 0 0 (some ⟨5, some 777⟩) 0 =
        (5, some ⟨5, some 777⟩) ∧
      trackTokenCost (fun _ => 30) (92 / 100) 0 0 none 0 =
        (0, some ⟨0, some 2678399⟩) := by
  have hm : monthEndMs 0 / 1000 = 2678399 := by decide
  constructor
  · simp [trackTokenCost, calculateTokenCostUSD, incrementMonthlyCogs, redisIncrByFloat,
      ensureExpireAtCogs, hm]
  · simp [trackTokenCost, calculateTokenCostUSD, incrementMonthlyCogs, redisIncrByFloat,
      ensureExpireAtCogs, hm]

/-! ### C7 — plan resolution ignores the subscription status -/

/-- C7 counterexample: the claim says a user whose only subscription
record is non-active (here `canceled`) is evaluated against the free
plan, i.e. exactly as a user with no record; but the code takes
`subscription?.planId` with no status filter, so the canceled `pro`
plan's limits apply: 300 economy requests are allowed under `pro`
(soft cap 2000) while the free plan (soft cap 300) blocks them. -/
theorem isAllowed_status_cex :
    stC7.sub = some ⟨.pro, .canceled⟩ ∧
      (isAllowed stC7 .economy).allowed = true ∧
      (isAllowed stC7free .economy).allowed = false ∧
      isAllowed stC7 .economy ≠ isAllowed stC7free .economy := by
  have h1 : isAllowed stC7 .economy = ⟨true, "ok", none⟩ := by
    norm_num [isAllowed, stC7, planIdOf, getPlanById, findWindowBlock, findWeeklyBlock,
      findSoftCapBlock, checkCostGuard]
  have h2 : (isAllowed stC7free .economy).allowed = false := by
    norm_num [isAllowed, stC7free, stC7, planIdOf, getPlanById, findWindowBlock,
      findWeeklyBlock, findSoftCapBlock, checkCostGuard]
  refine ⟨rfl, by rw [h1], h2, ?_⟩
  intro he
  have hx := congrArg AllowanceResult.allowed he
  rw [h1, h2] at hx
  simp at hx

/-- C7 amended: `isAllowed` evaluates limits against the plan of the
user's subscription record whatever its status — the decision depends
only on the record's `planId` — and against the free plan only when no
record exists (a user with no record is evaluated exactly like one with
a free-plan record of any status). -/
theorem isAllowed_status_irrelevant (st : BillingStore) (p : PlanId)
    (s1 s2 : SubStatus) (tier : ModelTier) :
    isAllowed { st with sub := some ⟨p, s1⟩ } tier =
        isAllowed { st with sub := some ⟨p, s2⟩ } tier ∧
      isAllowed { st with sub := none } tier =
        isAllowed { st with sub := some ⟨.free, s1⟩ } tier := by
  constructor
  · unfold isAllowed
    dsimp only [planIdOf]
    simp only [findWindowBlock_sub, findWeeklyBlock_sub, findSoftCapBlock_sub]
  · unfold isAllowed
    dsimp only [planIdOf]
    simp only [findWindowBlock_sub, findWeeklyBlock_sub, findSoftCapBlock_sub]

/-! ### C10 — free plan restricts only the economy tier -/

/-- C10: for a user resolved to the free plan, every tier other than
`economy` is allowed with reason `ok` regardless of recorded usage or
accumulated cost: the free plan lists no window, weekly or soft-cap
entry for those tiers and its zero monthly budget makes the cost guard
always allow. -/
theorem isAllowed_free_nonEconomy (st : BillingStore) (tier : ModelTier)
    (hf : st.fetchFails = false) (hp : planIdOf st = .free)
    (ht : tier ≠ .economy) :
    isAllowed st tier = ⟨true, "ok", none⟩ := by
  unfold isAllowed
  simp only [hf, Bool.false_eq_true, if_false, hp, getPlanById]
  simp only [findWindowBlock_free_ne st tier ht, findSoftCapBlock_free_ne st tier ht,
    findWeeklyBlock, checkCostGuard_zero_budget]
  rfl

/-- Witness for C10: a free-plan user with huge usage on every counter
and huge accumulated cost is still allowed on `flagship`. -/
theorem isAllowed_free_nonEconomy_witness :
    isAllowed
        { fetchFails := false
          sub := none
          rolling := fun _ _ => 1000000
          weekly := fun _ => 1000000
          monthly := fun _ => 1000000
          cogs := 1000000
          now := 0 } .flagship = ⟨true, "ok", none⟩ :=
  isAllowed_free_nonEconomy _ _ rfl rfl (by decide)

/-! ### C1 — stale events -/

/-- C1 (code bug): for an event older than the existing document's
watermark (`occurredAt = 1000 < lastEventAt = 2000`), the conditional
upsert matches nothing and its insert attempt violates the unique
`userId` index, so `processOne` throws and the drain loop marks the
event `failed` with the duplicate-key message — not `ignored` with
`stale_event` as the claim (and the code's own unreachable `if (!res)`
branch) intend. The subscription document itself is left unchanged. -/
theorem processOne_stale_fails :
    processOneCaught envC1 storeC1 evtC1 = (.failed (dupKeyMsg.take 500), storeC1) ∧
      (∀ r, (processOneCaught envC1 storeC1 evtC1).1 ≠ .ignored r) ∧
      docC1.lastEventAt = 2000 ∧ evtC1.occurredAt = 1000 ∧
      (processOneCaught envC1 storeC1 evtC1).2 "u1" = some docC1 := by
  refine ⟨rfl, ?_, rfl, rfl, rfl⟩
  intro r h
  rw [(rfl : (processOneCaught envC1 storeC1 evtC1).1 = .failed (dupKeyMsg.take 500))] at h
  exact ProcOutcome.noConfusion h

/-! ### C5 — ordering convergence -/

/-- C5 counterexample: two events for the same user with
`T1 = 1000 < T2 = 2000`, both resolvable and both carrying a mapped
plan, applied to an empty store in the two orders, leave different
subscription documents: the T2 event carries no period bounds, so after
T1-then-T2 the document keeps T1's `currentPeriodStart` (111), while
after T2-then-T1 the field is unset. -/
theorem processOne_order_cex :
    evtC5a.occurredAt < evtC5b.occurredAt ∧
      resolvedUser envC1 evtC5a = some "u1" ∧
      resolvedUser envC1 evtC5b = some "u1" ∧
      (getPlanFromItems envC1 evtC5a.payload.priceIds).isSome = true ∧
      (getPlanFromItems envC1 evtC5b.payload.priceIds).isSome = true ∧
      runTwo envC1 emptyStore evtC5a evtC5b "u1" ≠
        runTwo envC1 emptyStore evtC5b evtC5a "u1" := by
  refine ⟨by decide, rfl, rfl, rfl, rfl, ?_⟩
  intro he
  have hx : runTwo envC1 emptyStore evtC5a evtC5b "u1" =
      runTwo envC1 emptyStore evtC5b evtC5a "u1" := by rw [he]
  exact absurd hx (by decide)

/-- The watermark written by either upsert branch is the event's
`occurredAt`. -/
theorem applyInsert_lastEventAt (env : PaddleEnv) (evt : WEvent) (subId : String) :
    (applyInsert (buildUpdate env evt subId)).lastEventAt = evt.occurredAt := rfl

/-- The watermark after a `$set` is the event's `occurredAt`. -/
theorem applySet_lastEventAt (env : PaddleEnv) (evt : WEvent) (subId : String) (d : SubDoc) :
    (applySet d (buildUpdate env evt subId)).lastEventAt = evt.occurredAt := rfl

/-- For a complete event the `$set` overwrites every field, so updating
any existing document gives exactly the document an insert would
create. -/
theorem applySet_of_complete (env : PaddleEnv) (evt : WEvent) (subId : String)
    (h : updComplete env evt) (d : SubDoc) :
    applySet d (buildUpdate env evt subId) = applyInsert (buildUpdate env evt subId) := by
  obtain ⟨h1, h2, h3, h4⟩ := h
  cases hcu : evt.payload.customerId with
  | none => rw [hcu] at h1; simp at h1
  | some cu =>
    cases hps : evt.payload.periodStart with
    | none => rw [hps] at h2; simp at h2
    | some ps =>
      cases hmm : getPlanFromItems env evt.payload.priceIds with
      | none => rw [hmm] at h4; simp at h4
      | some m =>
        cases hca : evt.payload.cancelAt with
        | some ca =>
          simp [applySet, applyInsert, buildUpdate, setOr, hcu, hps, hmm, hca]
        | none =>
          cases hpe : evt.payload.periodEnd with
          | none =>
            rw [hca] at h3; rw [hpe] at h3
            simp at h3
          | some pe =>
            simp [applySet, applyInsert, buildUpdate, setOr, hcu, hps, hmm, hca, hpe]

/-- Applying an event to a store whose document for the resolved user
(if any) is older than the event: the event is processed and the user's
document becomes the applied update; other users are untouched. The
resulting document is `applyInsert` of the update when the store had no
document, else `applySet` of the old one. -/
theorem processOne_fresh (env : PaddleEnv) (s : SubStore) (evt : WEvent) (u sid : String)
    (hu : resolvedUser env evt = some u)
    (hid : evt.payload.dataId = some sid)
    (hm : (getPlanFromItems env evt.payload.priceIds).isSome = true)
    (hs : ∀ d, s u = some d → d.lastEventAt < evt.occurredAt) :
    processOneCaught env s evt =
      (.processed, fun v => if v = u then
        some (match s u with
              | none => applyInsert (buildUpdate env evt sid)
              | some d => applySet d (buildUpdate env evt sid))
        else s v) := by
  have hnm : ¬ getPlanFromItems env evt.payload.priceIds = none := by
    intro hx; rw [hx] at hm; simp at hm
  unfold processOneCaught processOne
  rw [hu, hid]
  dsimp only
  cases hsu : s u with
  | none =>
    rw [if_neg (fun hand => hnm hand.2)]
    simp [condUpsert]
  | some d =>
    rw [if_neg (fun hand => Option.noConfusion hand.1)]
    have hlt := hs d hsu
    simp [condUpsert, hlt]

/-- Applying an event older than the user's stored watermark: the
upsert raises the duplicate-key error, the drain loop marks the event
`failed`, and the whole store is unchanged. -/
theorem processOne_stale (env : PaddleEnv) (s : SubStore) (evt : WEvent) (u sid : String)
    (d : SubDoc)
    (hu : resolvedUser env evt = some u)
    (hid : evt.payload.dataId = some sid)
    (hsu : s u = some d)
    (hge : ¬ d.lastEventAt < evt.occurredAt) :
    processOneCaught env s evt = (.failed (dupKeyMsg.take 500), s) := by
  unfold processOneCaught processOne
  rw [hu, hid]
  dsimp only
  rw [hsu]
  rw [if_neg (fun hand => Option.noConfusion hand.1)]
  simp [condUpsert, hge]

/-- C5 amended: for two events for the same user with
`occurredAt = T1 < T2`, both resolvable, both carrying a subscription
id and a mapped plan, starting from any store whose document for the
user (if any) is older than T1, and with the T2 event carrying every
optional field (customer id, period bounds): both processing orders end
with the same document — the one implied by the T2 event alone — and
applying the T1 event after the T2 event changes nothing in the store
(the stale T1 application raises the duplicate-key error and is marked
`failed`). -/
theorem processOne_converges (env : PaddleEnv) (store0 : SubStore) (e1 e2 : WEvent)
    (u s1 s2 : String)
    (hu1 : resolvedUser env e1 = some u) (hu2 : resolvedUser env e2 = some u)
    (hid1 : e1.payload.dataId = some s1) (hid2 : e2.payload.dataId = some s2)
    (hm1 : (getPlanFromItems env e1.payload.priceIds).isSome = true)
    (hm2 : (getPlanFromItems env e2.payload.priceIds).isSome = true)
    (hcomp2 : updComplete env e2)
    (ht : e1.occurredAt < e2.occurredAt)
    (h0 : ∀ d, store0 u = some d → d.lastEventAt < e1.occurredAt) :
    runTwo env store0 e1 e2 u = some (applyInsert (buildUpdate env e2 s2)) ∧
      runTwo env store0 e2 e1 u = some (applyInsert (buildUpdate env e2 s2)) ∧
      (processOneCaught env (processOneCaught env store0 e2).2 e1).2 =
        (processOneCaught env store0 e2).2 := by
  have step1 := processOne_fresh env store0 e1 u s1 hu1 hid1 hm1 h0
  have hstep2all : ∀ s : SubStore, (∀ d, s u = some d → d.lastEventAt < e2.occurredAt) →
      processOneCaught env s e2 =
        (.processed, fun v => if v = u then some (applyInsert (buildUpdate env e2 s2))
          else s v) := by
    intro s hs
    have h := processOne_fresh env s e2 u s2 hu2 hid2 hm2 hs
    rw [h]
    cases hsu : s u with
    | none => rfl
    | some d =>
      have harr : (fun v => if v = u then
          some (applySet d (buildUpdate env e2 s2)) else s v) =
          (fun v => if v = u then some (applyInsert (buildUpdate env e2 s2)) else s v) := by
        funext v
        rw [applySet_of_complete env e2 s2 hcomp2 d]
      dsimp only
      rw [harr]
  refine ⟨?_, ?_, ?_⟩
  · unfold runTwo
    rw [step1]
    dsimp only
    have hs1 : ∀ d, ((fun v => if v = u then
        some (match store0 u with
              | none => applyInsert (buildUpdate env e1 s1)
              | some d => applySet d (buildUpdate env e1 s1))
        else store0 v) : SubStore) u = some d → d.lastEventAt < e2.occurredAt := by
      intro d hd
      dsimp only at hd
      rw [if_pos rfl] at hd
      injection hd with hd
      rw [← hd]
      cases hsu : store0 u with
      | none => rw [applyInsert_lastEventAt]; exact ht
      | some d0 => rw [applySet_lastEventAt]; exact ht
    rw [hstep2all _ hs1]
    simp
  · unfold runTwo
    have hs0 : ∀ d, store0 u = some d → d.lastEventAt < e2.occurredAt :=
      fun d hd => lt_trans (h0 d hd) ht
    rw [hstep2all store0 hs0]
    dsimp only
    have hD2 : ((fun v => if v = u then some (applyInsert (buildUpdate env e2 s2))
        else store0 v) : SubStore) u = some (applyInsert (buildUpdate env e2 s2)) := by
      simp
    rw [processOne_stale env _ e1 u s1 (applyInsert (buildUpdate env e2 s2)) hu1 hid1 hD2
      (by rw [applyInsert_lastEventAt]; omega)]
    simp
  · have hs0 : ∀ d, store0 u = some d → d.lastEventAt < e2.occurredAt :=
      fun d hd => lt_trans (h0 d hd) ht
    rw [hstep2all store0 hs0]
    dsimp only
    have hD2 : ((fun v => if v = u then some (applyInsert (buildUpdate env e2 s2))
        else store0 v) : SubStore) u = some (applyInsert (buildUpdate env e2 s2)) := by
      simp
    rw [processOne_stale env _ e1 u s1 (applyInsert (buildUpdate env e2 s2)) hu1 hid1 hD2
      (by rw [applyInsert_lastEventAt]; omega)]

/-- Witness for C5 (amended) at concrete inputs: `evtC5a` (T1) and the
complete `evtC5full` (T2) applied to the empty store in both orders
both end with T2's document, and T1-after-T2 is a no-op on the store. -/
theorem processOne_converges_witness :
    runTwo envC1 emptyStore evtC5a evtC5full "u1" =
        some (applyInsert (buildUpdate envC1 evtC5full "s1")) ∧
      runTwo envC1 emptyStore evtC5full evtC5a "u1" =
        some (applyInsert (buildUpdate envC1 evtC5full "s1")) ∧
      (processOneCaught envC1 (processOneCaught envC1 emptyStore evtC5full).2 evtC5a).2 =
        (processOneCaught envC1 emptyStore evtC5full).2 :=
  processOne_converges envC1 emptyStore evtC5a evtC5full "u1" "s1" "s1" rfl rfl rfl rfl
    rfl rfl ⟨rfl, rfl, Or.inr rfl, rfl⟩ (by decide)
    (fun d hd => by simp [emptyStore] at hd)

/-! ### C8 — weekly counter keys partition time into ISO weeks -/

/-- The weekly key computed by `isoWeekInfo` depends on the instant
only through the Monday of its week: `thurs = monday + 3`, and the
floor week count from `week1Mon` is unchanged by the 0..6-day offset of
the instant within its week because `monday - week1Mon` is a multiple
of 7 (both are Mondays). -/
theorem isoWeekNums_eq_ofMonday (ms : Int) :
    isoWeekNums ms = isoPairOfMonday (7 * isoWeekIndex ms - 3) := by
  simp only [isoWeekNums, isoPairOfMonday, isoWeekIndex]
  have hth : epochDay ms + (4 - dow7 (epochDay ms)) =
      7 * ((epochDay ms + 3) / 7) - 3 + 3 := by
    rw [dow7_eq]; omega
  rw [hth, Prod.mk.injEq]
  refine ⟨rfl, ?_⟩
  rw [dow7_eq]
  generalize daysFromCivil (yearOfDay (7 * ((epochDay ms + 3) / 7) - 3 + 3)) 1 1 = J
  generalize epochDay ms = b
  omega

/-- The weekly key determines the Monday it was computed from: the
year component fixes `week1Mon` (a Monday), and the week component
recovers the Monday as `week1Mon + 7 * (isoWeek - 1)`. -/
theorem isoPairOfMonday_inj (m1 m2 : Int) (h1 : (m1 + 3) % 7 = 0) (h2 : (m2 + 3) % 7 = 0)
    (h : isoPairOfMonday m1 = isoPairOfMonday m2) : m1 = m2 := by
  simp only [isoPairOfMonday, Prod.mk.injEq] at h
  obtain ⟨hy, hw⟩ := h
  have hJ : daysFromCivil (yearOfDay (m1 + 3)) 1 1 = daysFromCivil (yearOfDay (m2 + 3)) 1 1 := by
    rw [hy]
  rw [hJ] at hw
  generalize daysFromCivil (yearOfDay (m2 + 3)) 1 1 = J at hw
  rw [dow7_eq] at hw
  omega

/-- C8: the weekly counter key derived by `weekKey` (shared by
`incrementWeeklyUsage` and `getWeeklyUsage`) is the same for two
instants exactly when they lie in the same ISO-8601 (Monday-start)
week; in particular 2025-10-05 23:59:59 UTC (a Sunday) and 2025-10-06
00:00:01 UTC (the following Monday) get different keys. -/
theorem weekKey_same_iff :
    (∀ t1 t2 : Int, weekKeyPair t1 = weekKeyPair t2 ↔ isoWeekIndex t1 = isoWeekIndex t2) ∧
      weekKeyPair 1759708799000 ≠ weekKeyPair 1759708801000 := by
  have main : ∀ t1 t2 : Int,
      weekKeyPair t1 = weekKeyPair t2 ↔ isoWeekIndex t1 = isoWeekIndex t2 := by
    intro t1 t2
    unfold weekKeyPair
    rw [isoWeekNums_eq_ofMonday t1, isoWeekNums_eq_ofMonday t2]
    constructor
    · intro h
      have := isoPairOfMonday_inj _ _ (by omega) (by omega) h
      omega
    · intro h
      rw [h]
  refine ⟨main, ?_⟩
  intro h
  exact absurd ((main _ _).mp h) (by decide)

end Evochat
